import Mathlib

/-!
Shallow embedding of the content-generation core of the telegram-auto-texter
repository, together with proofs checking its natural-language specification.

The embedding covers:
* `src/utils/random.py` — `low_random` (the skewed sampler), with Python's
  `random.random()` draw passed explicitly as a real number `u ∈ [0, 1)` and
  Python's `int()` truncation modelled by `pyInt`;
* `src/worker.py` — `filter_by_register`, `set_as_used` (the rotating usage
  register, with the YAML-backed register modelled as a map from catalog kind
  to the list stored under that kind), and the pick functions
  `get_morning_sticker` / `get_morning_media` (with the `random.choice` call
  passed explicitly as a chooser that returns a member of the list, and the
  raised `ValueError` modelled as an `Except` error value);
* `src/sentence_generator/sentence_generator.py` — `Token` and
  `SentenceGenerator`.  A token's `value` field holds the string the token
  renders to (for `CustomGeneratedText` values this is the string produced by
  the wrapped generator at render time, since `str(...)` invokes it); the
  per-token `pick_next` strategy and the generator's `pick_root` strategy are
  passed explicitly.  Every strategy used by the repository
  (`random.choice`, and `tokens[low_random(0, len(tokens) - 1)]`) returns a
  member of its argument list, which is what the `Picker` type records;
* `src/sentence_generator/morning.py` — the emoji slot lists, `get_emoji`,
  `get_all_emojis`, and `get_morning_greeting`, with the sequence of random
  draws passed as a stream `draws : ℕ → ℝ` consumed six per attempt, and the
  `while not emojis` retry loop modelled by the first non-empty attempt.
-/

/-! ## src/utils/random.py -/

open Classical in
/-- Python's `int()` conversion applied to a real number: truncation toward
zero (`int(2.7) = 2`, `int(-2.7) = -2`). -/
noncomputable def pyInt (x : ℝ) : ℤ :=
  if 0 ≤ x then ⌊x⌋ else ⌈x⌉

/-- `low_random(a, b, p)` from `src/utils/random.py`:
`return a + int((b - a + 1) * (random.random() ** p))`, with the uniform draw
`random.random()` passed explicitly as `u`. -/
noncomputable def low_random (a b : ℤ) (p : ℝ) (u : ℝ) : ℤ :=
  a + pyInt (((b - a + 1 : ℤ) : ℝ) * u ^ p)

/-! ## src/worker.py — the rotating usage register -/

/-- One catalog entry (a sticker or media item from `stickers.yaml` /
`media.yaml`).  Only the stable identifier `uid` is relevant to the registry
logic; the payload fields (`path`, `id`, `access_hash`, `file_reference`) are
abstracted away. -/
structure Entry where
  uid : Int
deriving DecidableEq

/-- A raised Python exception, as far as the registry code is concerned.
Both pick functions of `src/worker.py` raise `ValueError(msg)`. -/
inductive PyError where
  | valueError (msg : String)
deriving DecidableEq

/-- The usage register of `register.yaml`: a map from catalog kind (the YAML
key, e.g. `"morning_media"`) to the list of already-used identifiers stored
under that kind. -/
abbrev Register := String → List Int

/-- The catalog database (`media.yaml` / `stickers.yaml`): a map from catalog
kind to the list of entries stored under that kind. -/
abbrev Database := String → List Entry

/-- `filter_by_register(data, register, key)` from `src/worker.py`:
`[d for d in data if (d if key is None else d[key]) not in set(register)]`.
The per-element lookup `d if key is None else d[key]` is passed as the getter
`key : α → β` (so Python's `key=None` corresponds to `key := fun d => d`, and
the default `key="uid"` to `key := Entry.uid`).  Membership in `set(register)`
coincides with membership in the list `register`.  The comprehension builds a
fresh list; neither `data` nor `register` is mutated. -/
def filter_by_register {α β : Type} [DecidableEq β]
    (data : List α) (register : List β) (key : α → β) : List α :=
  data.filter (fun d => decide (key d ∉ register))

/-- A chooser standing for `random.choice` on lists of entries: it is only
ever invoked on a non-empty list and returns a member of that list. -/
abbrev EntryChooser := (l : List Entry) → l ≠ [] → { e : Entry // e ∈ l }

/-- `get_morning_sticker()` from `src/worker.py`: read the register under
`"morning_stickers"`, filter the sticker catalog by it, raise
`ValueError("No available morning stickers to choose from.")` when nothing is
left, otherwise return a `random.choice` of the remaining stickers.  The YAML
reads are modelled by passing the catalog and the register list directly; the
`file_reference` re-encoding of the chosen sticker is payload-only and is not
modelled. -/
def get_morning_sticker (catalog : List Entry) (register : List Int)
    (choose : EntryChooser) : Except PyError Entry :=
  let morning_stickers := filter_by_register catalog register Entry.uid
  if h : morning_stickers = [] then
    .error (.valueError "No available morning stickers to choose from.")
  else
    .ok (choose morning_stickers h).val

/-- `get_morning_media()` from `src/worker.py`: read the register under
`"morning_media"`, filter the media catalog by it, raise
`ValueError("No available morning media items to choose from.")` when nothing
is left, otherwise return a `random.choice` of the remaining items. -/
def get_morning_media (catalog : List Entry) (register : List Int)
    (choose : EntryChooser) : Except PyError Entry :=
  let morning_media := filter_by_register catalog register Entry.uid
  if h : morning_media = [] then
    .error (.valueError "No available morning media items to choose from.")
  else
    .ok (choose morning_media h).val

/-- `bisect.insort(lst, uid)` as used by `set_as_used`: insert `uid` into the
list, after any elements it does not compare strictly below (insort-right). -/
def insort (x : Int) : List Int → List Int
  | [] => [x]
  | y :: ys => if x < y then x :: y :: ys else y :: insort x ys

/-- `set_as_used(entry, uid, db_yaml)` from `src/worker.py`.  If `uid` is
already in `register[entry]` nothing happens and the register is returned
unchanged (the file is not even rewritten).  Otherwise `uid` is insorted into
`register[entry]`; then, if the updated list is as long as the catalog list
`data[entry]` of `db_yaml`, `register[entry]` is cleared to `[]`; finally the
register is saved.  The persisted register is modelled by the `Register` value
passed in and returned. -/
def set_as_used (entry : String) (uid : Int) (db : Database)
    (register : Register) : Register :=
  if uid ∈ register entry then
    register
  else
    let inserted := insort uid (register entry)
    let updated := if inserted.length = (db entry).length then ([] : List Int)
      else inserted
    fun k => if k = entry then updated else register k

/-! ## src/sentence_generator/sentence_generator.py -/

/-- A `Token` of the sentence graph: its `value` rendered as a string, and its
`next_tokens` list of candidate successors.  The authored graphs are finite
trees, which the inductive type captures; the per-token `pick_next` strategy
is passed to `eval` explicitly (functions stored in the node would put `Token`
in a negative position). -/
inductive Token where
  | mk (value : String) (next_tokens : List Token)

/-- The rendered `value` of a token (`str(self.value)`). -/
def Token.value : Token → String
  | .mk v _ => v

/-- The `next_tokens` list of a token. -/
def Token.next_tokens : Token → List Token
  | .mk _ ts => ts

/-- Emptiness of a token list is decidable (the `len(...) == 0` tests of the
source), even though token equality itself is never needed. -/
instance decTokenListEqNil (l : List Token) : Decidable (l = []) :=
  match l with
  | [] => .isTrue rfl
  | _ :: _ => .isFalse (fun h => List.noConfusion h)

/-- A successor/root-selection strategy (`pick_next` / `pick_root`): invoked
only on a non-empty list, it returns one member of that list, as
`random.choice` and the repository's custom index-based strategies do. -/
abbrev Picker := (l : List Token) → l ≠ [] → { t : Token // t ∈ l }

/-- `Token.get_next_token(self)`:
`return None if len(self.next_tokens) == 0 else self.pick_next(self.next_tokens)`. -/
def Token.get_next_token (pick : Picker) (t : Token) : Option Token :=
  if h : t.next_tokens = [] then none else some (pick t.next_tokens h).val

/-- `Token.eval(self)`:
`left = str(self.value)`; `next_token = self.get_next_token()` (inlined here:
`None` when there are no successors, otherwise the picked successor);
`right = "" if next_token is None else next_token.eval()`;
`return f"{left}{' ' if left != '' and right != '' else ''}{right}"`. -/
def Token.eval (pick : Picker) (t : Token) : String :=
  let left := t.value
  let right :=
    if h : t.next_tokens = [] then "" else Token.eval pick (pick t.next_tokens h).val
  left ++ (if left ≠ "" ∧ right ≠ "" then " " else "") ++ right
termination_by sizeOf t
decreasing_by
  have hmem := (pick t.next_tokens h).property
  have h1 : sizeOf (pick t.next_tokens h).val < sizeOf t.next_tokens :=
    List.sizeOf_lt_of_mem hmem
  cases t with
  | mk v ts =>
    simp only [Token.next_tokens] at h1 ⊢
    simp only [Token.mk.sizeOf_spec]
    omega

/-- `SentenceGenerator`: the list of initial (root) tokens; the `pick_root`
strategy is passed to `eval` explicitly. -/
structure SentenceGenerator where
  initial_tokens : List Token

/-- `SentenceGenerator.eval(self)`:
`return "" if len(self.initial_tokens) == 0 else self.pick_root(self.initial_tokens).eval()`. -/
def SentenceGenerator.eval (pick_root : Picker) (pick : Picker)
    (g : SentenceGenerator) : String :=
  if h : g.initial_tokens = [] then ""
  else Token.eval pick (pick_root g.initial_tokens h).val

/-- The strategy that always picks the first element — a concrete `Picker`
used to instantiate theorems on concrete inputs. -/
def pickFirst : Picker := fun l h =>
  match l, h with
  | t :: _, _ => ⟨t, List.mem_cons_self t _⟩

/-- A concrete `EntryChooser` that always picks the first entry. -/
def chooseFirst : EntryChooser := fun l h =>
  match l, h with
  | e :: _, _ => ⟨e, List.mem_cons_self e _⟩

/-! ## src/sentence_generator/morning.py -/

/-- `emoji1` from `get_morning_greeting`. -/
def emoji1 : List String := ["", "👋", "✌"]

/-- `emoji2` from `get_morning_greeting`. -/
def emoji2 : List String := ["", "😛", "😝", "🤪", "😋"]

/-- `emoji3` from `get_morning_greeting`. -/
def emoji3 : List String := ["", "🙃", "😁", "😄", "😃"]

/-- `emoji4` from `get_morning_greeting`. -/
def emoji4 : List String := ["", "🤗", "😚", "😊", "☺", "🤭"]

/-- `emoji5` from `get_morning_greeting`. -/
def emoji5 : List String := ["", "🥰", "😘"]

/-- `emoji6` from `get_morning_greeting`. -/
def emoji6 : List String := ["", "🫶", "❤"]

/-- `get_emoji(emojis, p)` from `src/sentence_generator/morning.py`:
`return emojis[low_random(1, len(emojis), p) - 1]`, with the uniform draw
passed as `u`.  The Python indexing is modelled with `List.getD`; the safety
theorem below shows the index is always in bounds, so the default is never
taken. -/
noncomputable def get_emoji (emojis : List String) (p : ℝ) (u : ℝ) : String :=
  emojis.getD (low_random 1 (emojis.length : ℤ) p u - 1).toNat ""

/-- `get_all_emojis()` from `get_morning_greeting`: the concatenation, with no
separators, of one choice from each of the six slot lists, with the skew
exponents 3.5, 5, 4, 3, 1.3 and 2, consuming one uniform draw per slot. -/
noncomputable def get_all_emojis (u : Fin 6 → ℝ) : String :=
  get_emoji emoji1 3.5 (u 0) ++ get_emoji emoji2 5 (u 1) ++ get_emoji emoji3 4 (u 2)
    ++ get_emoji emoji4 3 (u 3) ++ get_emoji emoji5 1.3 (u 4) ++ get_emoji emoji6 2 (u 5)

/-- The `k`-th iteration of the `while not emojis` loop body of
`get_morning_greeting`: one `get_all_emojis()` call, consuming the six draws
`draws (6 * k)`, …, `draws (6 * k + 5)` of the shared random stream. -/
noncomputable def emoji_attempt (draws : ℕ → ℝ) (k : ℕ) : String :=
  get_all_emojis (fun i => draws (6 * k + i.val))

/-- `get_morning_greeting()` from `src/sentence_generator/morning.py`:
`greeting = sentences.eval()` is passed in as `greeting`; the
`while not emojis: emojis = get_all_emojis()` loop terminates with the first
non-empty attempt (the hypothesis `h` states one exists — for the actual
emoji lists and genuinely random draws this happens with probability one);
`return f"{greeting} {emojis}"`. -/
noncomputable def get_morning_greeting (greeting : String) (draws : ℕ → ℝ)
    (h : ∃ k, emoji_attempt draws k ≠ "") : String :=
  greeting ++ " " ++ emoji_attempt draws (Nat.find h)

/-! ## Specification-side definitions (from the spec's words, for comparison) -/

/-- Modelled from the spec: join `left` and `right` with a single space only
if both are non-empty (§4.3 of the spec). -/
def space_join (left right : String) : String :=
  if left ≠ "" ∧ right ≠ "" then left ++ " " ++ right else left ++ right

/-- Modelled from the claim's words: keep exactly those elements of `data`,
in their original order, whose `key`-value is not a member of `register`. -/
def filter_by_register_spec {α β : Type} [DecidableEq β]
    (data : List α) (register : List β) (key : α → β) : List α :=
  match data with
  | [] => []
  | d :: ds =>
    if key d ∈ register then filter_by_register_spec ds register key
    else d :: filter_by_register_spec ds register key

/-- The identifiers present in a catalog. -/
def catalog_uids (catalog : List Entry) : List Int :=
  catalog.map Entry.uid

/-! ## Concrete instances used by witnesses and counterexamples -/

/-- An empty register: no identifier used for any kind. -/
def emptyRegister : Register := fun _ => []

/-- A three-entry catalog under every kind (the spec's end-to-end scenario
`[{uid:1},{uid:2},{uid:3}]`). -/
def db3 : Database := fun _ => [⟨1⟩, ⟨2⟩, ⟨3⟩]

/-- A one-entry catalog under every kind. -/
def db1 : Database := fun _ => [⟨5⟩]

/-- A register that already holds identifier 7 under every kind. -/
def regSeven : Register := fun _ => [7]

/-- A concrete draw stream: draw number 5 is 9/10, all others are 0. -/
noncomputable def draws0 : ℕ → ℝ := fun n => if n = 5 then 9 / 10 else 0

/-! ## Helper lemmas -/

/-- The sampler's truncation is a floor on its non-negative argument, and the
result lies in `[a, b]` whenever `a ≤ b`, `p > 0` and `u ∈ [0, 1)`. -/
theorem low_random_range (a b : ℤ) (p u : ℝ) (hab : a ≤ b) (hp : 0 < p)
    (hu0 : 0 ≤ u) (hu1 : u < 1) :
    low_random a b p u = a + ⌊((b - a + 1 : ℤ) : ℝ) * u ^ p⌋ ∧
      a ≤ low_random a b p u ∧ low_random a b p u ≤ b := by
  have h1 : (0 : ℤ) < b - a + 1 := by omega
  have hc : (0 : ℝ) < ((b - a + 1 : ℤ) : ℝ) := by exact_mod_cast h1
  have hup0 : 0 ≤ u ^ p := Real.rpow_nonneg hu0 p
  have hup1 : u ^ p < 1 := Real.rpow_lt_one hu0 hu1 hp
  have harg0 : 0 ≤ ((b - a + 1 : ℤ) : ℝ) * u ^ p := mul_nonneg hc.le hup0
  have hargb : ((b - a + 1 : ℤ) : ℝ) * u ^ p < ((b - a + 1 : ℤ) : ℝ) := by
    calc ((b - a + 1 : ℤ) : ℝ) * u ^ p < ((b - a + 1 : ℤ) : ℝ) * 1 :=
          mul_lt_mul_of_pos_left hup1 hc
      _ = ((b - a + 1 : ℤ) : ℝ) := mul_one _
  have heq : low_random a b p u = a + ⌊((b - a + 1 : ℤ) : ℝ) * u ^ p⌋ := by
    unfold low_random pyInt
    rw [if_pos harg0]
  have hfl0 : 0 ≤ ⌊((b - a + 1 : ℤ) : ℝ) * u ^ p⌋ := Int.floor_nonneg.mpr harg0
  have hflb : ⌊((b - a + 1 : ℤ) : ℝ) * u ^ p⌋ < b - a + 1 := by
    rw [Int.floor_lt]
    exact_mod_cast hargb
  refine ⟨heq, ?_, ?_⟩ <;> rw [heq] <;> linarith

/-- `insort` grows the list by exactly one element. -/
theorem insort_length (x : Int) (l : List Int) :
    (insort x l).length = l.length + 1 := by
  induction l with
  | nil => rfl
  | cons y ys ih => by_cases h : x < y <;> simp [insort, h, ih]

/-- `insort x l` is a permutation of `x :: l`. -/
theorem insort_perm (x : Int) (l : List Int) :
    List.Perm (insort x l) (x :: l) := by
  induction l with
  | nil => exact List.Perm.refl _
  | cons y ys ih =>
    by_cases h : x < y
    · simp [insort, h]
    · simp only [insort, if_neg h]
      exact (ih.cons y).trans (List.Perm.swap x y ys)

/-- Membership in an insorted list. -/
theorem mem_insort {a x : Int} {l : List Int} :
    a ∈ insort x l ↔ a = x ∨ a ∈ l := by
  rw [(insort_perm x l).mem_iff, List.mem_cons]

/-- Pointwise description of the register returned by `set_as_used`. -/
theorem set_as_used_apply (entry : String) (uid : Int) (db : Database)
    (register : Register) (k : String) :
    (set_as_used entry uid db register) k =
      if uid ∈ register entry then register k
      else if k = entry then
        (if (insort uid (register entry)).length = (db entry).length then []
         else insort uid (register entry))
      else register k := by
  by_cases h : uid ∈ register entry
  · simp [set_as_used, h]
  · by_cases hk : k = entry <;> simp [set_as_used, h, hk]

/-- `filter_by_register` keeps a sublist of its input (order preserved). -/
theorem filter_by_register_sublist {α β : Type} [DecidableEq β]
    (data : List α) (register : List β) (key : α → β) :
    List.Sublist (filter_by_register data register key) data :=
  List.filter_sublist data

/-- Membership in a filtered list. -/
theorem mem_filter_by_register {α β : Type} [DecidableEq β]
    {data : List α} {register : List β} {key : α → β} {d : α} :
    d ∈ filter_by_register data register key ↔ d ∈ data ∧ key d ∉ register := by
  simp [filter_by_register, List.mem_filter]

/-- `filter_by_register` agrees with the recursive specification. -/
theorem filter_by_register_eq_spec {α β : Type} [DecidableEq β]
    (data : List α) (register : List β) (key : α → β) :
    filter_by_register data register key = filter_by_register_spec data register key := by
  induction data with
  | nil => rfl
  | cons d ds ih =>
    by_cases h : key d ∈ register <;>
      simp only [filter_by_register, filter_by_register_spec, List.filter_cons, h,
        decide_not, if_pos, if_neg] <;>
      simp [h, ← ih, filter_by_register]

/-- A non-empty string has positive length. -/
theorem string_length_pos_of_ne {s : String} (h : s ≠ "") : 0 < s.length := by
  by_contra hlen
  push_neg at hlen
  have h0 : s.data.length = 0 := by
    have := String.length_data s
    omega
  exact h (String.ext (by simpa using List.length_eq_zero.mp h0))

/-! ## Claim theorems -/

/-- C2: for every pair of integers `a ≤ b`, every real exponent `p > 0` and
every uniform draw `u ∈ [0, 1)`, `low_random a b p u` equals
`a + ⌊(b - a + 1) * u ^ p⌋` and lies in the inclusive range `[a, b]`; the
function is total in these inputs, so the call cannot throw for any `p > 0`. -/
theorem low_random_spec (a b : ℤ) (p u : ℝ) (hab : a ≤ b) (hp : 0 < p)
    (hu0 : 0 ≤ u) (hu1 : u < 1) :
    low_random a b p u = a + ⌊((b - a + 1 : ℤ) : ℝ) * u ^ p⌋ ∧
      a ≤ low_random a b p u ∧ low_random a b p u ≤ b :=
  low_random_range a b p u hab hp hu0 hu1

/-- Witness for C2 at `a = 0`, `b = 2`, `p = 1`, `u = 1/2`. -/
theorem low_random_spec_witness :
    ((0 : ℤ) ≤ 2 ∧ (0 : ℝ) < 1 ∧ (0 : ℝ) ≤ 1 / 2 ∧ (1 / 2 : ℝ) < 1) ∧
      (low_random 0 2 1 (1 / 2) = 0 + ⌊((2 - 0 + 1 : ℤ) : ℝ) * (1 / 2 : ℝ) ^ (1 : ℝ)⌋ ∧
        0 ≤ low_random 0 2 1 (1 / 2) ∧ low_random 0 2 1 (1 / 2) ≤ 2) :=
  ⟨⟨by norm_num, by norm_num, by norm_num, by norm_num⟩,
    low_random_spec 0 2 1 (1 / 2) (by norm_num) (by norm_num) (by norm_num) (by norm_num)⟩

/-- C10: for every non-empty emoji list and every exponent `p > 0`, the index
`low_random 1 (len emojis) p u - 1` computed by `get_emoji` lies in
`[0, len emojis - 1]`, so the list indexing inside `get_emoji` is always in
bounds (no `IndexError`) and `get_emoji` returns the element at that index. -/
theorem get_emoji_safe (emojis : List String) (p u : ℝ) (hne : emojis ≠ [])
    (hp : 0 < p) (hu0 : 0 ≤ u) (hu1 : u < 1) :
    0 ≤ low_random 1 (emojis.length : ℤ) p u - 1 ∧
      low_random 1 (emojis.length : ℤ) p u - 1 ≤ (emojis.length : ℤ) - 1 ∧
      ∃ hidx : (low_random 1 (emojis.length : ℤ) p u - 1).toNat < emojis.length,
        get_emoji emojis p u =
          emojis.get ⟨(low_random 1 (emojis.length : ℤ) p u - 1).toNat, hidx⟩ := by
  have hpos : 0 < emojis.length := List.length_pos.mpr hne
  have hlen : (1 : ℤ) ≤ (emojis.length : ℤ) := by exact_mod_cast hpos
  obtain ⟨-, hlo, hhi⟩ := low_random_range 1 (emojis.length : ℤ) p u hlen hp hu0 hu1
  have hidx : (low_random 1 (emojis.length : ℤ) p u - 1).toNat < emojis.length := by
    omega
  exact ⟨by omega, by omega, hidx,
    (List.getD_eq_getElem emojis "" hidx).trans
      (List.get_eq_getElem emojis ⟨_, hidx⟩).symm⟩

/-- Witness for C10 at `emojis = ["x"]`, `p = 1`, `u = 0`. -/
theorem get_emoji_safe_witness :
    ((["x"] : List String) ≠ [] ∧ (0 : ℝ) < 1 ∧ (0 : ℝ) ≤ 0 ∧ (0 : ℝ) < 1) ∧
      (0 ≤ low_random 1 ((["x"] : List String).length : ℤ) 1 0 - 1 ∧
        low_random 1 ((["x"] : List String).length : ℤ) 1 0 - 1 ≤
          ((["x"] : List String).length : ℤ) - 1 ∧
        ∃ hidx : (low_random 1 ((["x"] : List String).length : ℤ) 1 0 - 1).toNat <
            (["x"] : List String).length,
          get_emoji ["x"] 1 0 =
            (["x"] : List String).get
              ⟨(low_random 1 ((["x"] : List String).length : ℤ) 1 0 - 1).toNat, hidx⟩) :=
  ⟨⟨by simp, by norm_num, le_refl 0, by norm_num⟩,
    get_emoji_safe ["x"] 1 0 (by simp) (by norm_num) (le_refl 0) (by norm_num)⟩

/-- C9: `filter_by_register` returns exactly the elements of `data`, in their
original order, whose `key`-value (or the element itself, for Python's
`key=None`, modelled by the identity getter) is not a member of `register`;
being a list comprehension over a fresh `set(register)`, it mutates neither
`data` nor `register` (the embedding is pure, so both inputs are values). -/
theorem filter_by_register_correct :
    (∀ {α β : Type} [DecidableEq β] (data : List α) (register : List β) (key : α → β),
        filter_by_register data register key = filter_by_register_spec data register key) ∧
    (∀ {α β : Type} [DecidableEq β] (data : List α) (register : List β) (key : α → β),
        List.Sublist (filter_by_register data register key) data) ∧
    (∀ {α β : Type} [DecidableEq β] (data : List α) (register : List β) (key : α → β) (d : α),
        d ∈ filter_by_register data register key ↔ d ∈ data ∧ key d ∉ register) ∧
    (∀ {β : Type} [DecidableEq β] (data register : List β) (d : β),
        d ∈ filter_by_register data register (fun x => x) ↔ d ∈ data ∧ d ∉ register) :=
  ⟨fun data register key => filter_by_register_eq_spec data register key,
    fun data register key => filter_by_register_sublist data register key,
    fun _ _ _ _ => mem_filter_by_register,
    fun _ _ _ => mem_filter_by_register⟩

/-- The fold of `set_as_used` over a duplicate-free batch of fresh identifiers
that exactly tops the register up to the catalog's size ends with the register
cleared for that kind. -/
theorem foldl_set_as_used_clears (entry : String) (db : Database) :
    ∀ (uids : List Int) (register : Register),
      (register entry ++ uids).Nodup →
      (register entry).length + uids.length = (db entry).length →
      uids ≠ [] →
      (uids.foldl (fun r u => set_as_used entry u db r) register) entry = [] := by
  intro uids
  induction uids with
  | nil => intro register _ _ hne; exact absurd rfl hne
  | cons u rest ih =>
    intro register hnd hlen _
    have hu : u ∉ register entry := by
      rcases List.nodup_append.mp hnd with ⟨-, -, hdisj⟩
      intro hmem
      exact hdisj hmem (List.mem_cons_self u rest)
    rcases eq_or_ne rest [] with hrest | hrest
    · subst hrest
      have hfull : (insort u (register entry)).length = (db entry).length := by
        rw [insort_length]
        simp only [List.length_cons, List.length_nil] at hlen
        omega
      simp [List.foldl_cons, set_as_used_apply, hu, hfull]
    · have hnotfull : (insort u (register entry)).length ≠ (db entry).length := by
        rw [insort_length]
        have : 1 ≤ rest.length := List.length_pos.mpr hrest
        simp only [List.length_cons] at hlen
        omega
      have hr : (set_as_used entry u db register) entry = insort u (register entry) := by
        simp [set_as_used_apply, hu, hnotfull]
      have hperm : List.Perm (register entry ++ u :: rest)
          ((set_as_used entry u db register) entry ++ rest) := by
        rw [hr]
        exact List.perm_middle.trans ((insort_perm u (register entry)).symm.append_right rest)
      rw [List.foldl_cons]
      exact ih (set_as_used entry u db register) (hperm.nodup hnd)
        (by rw [hr, insort_length]; simp only [List.length_cons] at hlen; omega) hrest

/-- C1: `set_as_used` clears the register for a kind to `[]` exactly when
inserting a previously unused identifier makes it as long as that kind's
catalog; in particular, starting from an empty register, marking as many
distinct identifiers as the catalog has entries leaves the register empty. -/
theorem set_as_used_full_reset :
    (∀ (entry : String) (uid : Int) (db : Database) (register : Register),
        uid ∉ register entry →
        (insort uid (register entry)).length = (db entry).length →
        (set_as_used entry uid db register) entry = []) ∧
    (∀ (entry : String) (db : Database) (register : Register) (uids : List Int),
        register entry = [] → uids.Nodup → uids.length = (db entry).length →
        (uids.foldl (fun r u => set_as_used entry u db r) register) entry = []) := by
  constructor
  · intro entry uid db register hu hlen
    simp [set_as_used_apply, hu, hlen]
  · intro entry db register uids h0 hnd hlen
    rcases uids with _ | ⟨u, rest⟩
    · simpa using h0
    · exact foldl_set_as_used_clears entry db (u :: rest) register
        (by rw [h0]; simpa using hnd) (by rw [h0]; simpa using hlen) (by simp)

/-- Witness for C1: the spec's end-to-end scenario — a three-entry catalog,
an empty register, three distinct marks — and the single-mark reset case. -/
theorem set_as_used_full_reset_witness :
    (((5 : Int) ∉ emptyRegister "morning_media" ∧
        (insort 5 (emptyRegister "morning_media")).length = (db1 "morning_media").length) ∧
      (set_as_used "morning_media" 5 db1 emptyRegister) "morning_media" = []) ∧
      ((emptyRegister "morning_media" = [] ∧ ([2, 1, 3] : List Int).Nodup ∧
          ([2, 1, 3] : List Int).length = (db3 "morning_media").length) ∧
        (([2, 1, 3] : List Int).foldl
            (fun r u => set_as_used "morning_media" u db3 r) emptyRegister) "morning_media" = []) :=
  ⟨⟨⟨by decide, by decide⟩,
      set_as_used_full_reset.1 "morning_media" 5 db1 emptyRegister (by decide) (by decide)⟩,
    ⟨⟨rfl, by decide, by decide⟩,
      set_as_used_full_reset.2 "morning_media" db3 emptyRegister [2, 1, 3] rfl
        (by decide) (by decide)⟩⟩

/-- Counterexample to C5 as stated: with a one-entry catalog and an empty
register, marking the absent identifier 5 does not add it — the insertion
fills the register to the catalog's size, so the full-cycle reset immediately
clears the register and 5 is absent from the post-state. -/
theorem set_as_used_adds_counterexample :
    (5 : Int) ∉ emptyRegister "morning_media" ∧
      (set_as_used "morning_media" 5 db1 emptyRegister) "morning_media" = [] ∧
      (5 : Int) ∉ (set_as_used "morning_media" 5 db1 emptyRegister) "morning_media" := by
  refine ⟨by decide, by decide, by decide⟩

/-- C5 (amended): `set_as_used` with an identifier already present for that
kind returns the register unchanged (no insertion, no reset, no effect at
all); with an absent identifier it leaves every other kind unchanged and adds
exactly that identifier to the kind's list — except when the insertion makes
the list as long as the catalog, in which case the kind's list is cleared to
`[]` (the full-cycle reset). -/
theorem set_as_used_idempotent_spec :
    (∀ (entry : String) (uid : Int) (db : Database) (register : Register),
        uid ∈ register entry → set_as_used entry uid db register = register) ∧
    (∀ (entry : String) (uid : Int) (db : Database) (register : Register),
        uid ∉ register entry →
          (∀ k, k ≠ entry → (set_as_used entry uid db register) k = register k) ∧
          ((insort uid (register entry)).length ≠ (db entry).length →
            (set_as_used entry uid db register) entry = insort uid (register entry) ∧
            (∀ x, x ∈ (set_as_used entry uid db register) entry ↔
              x = uid ∨ x ∈ register entry)) ∧
          ((insort uid (register entry)).length = (db entry).length →
            (set_as_used entry uid db register) entry = [])) := by
  constructor
  · intro entry uid db register h
    simp [set_as_used, h]
  · intro entry uid db register h
    refine ⟨?_, ?_, ?_⟩
    · intro k hk
      simp [set_as_used_apply, h, hk]
    · intro hlen
      have he : (set_as_used entry uid db register) entry = insort uid (register entry) := by
        simp [set_as_used_apply, h, hlen]
      exact ⟨he, fun x => by rw [he]; exact mem_insort⟩
    · intro hlen
      simp [set_as_used_apply, h, hlen]

/-- Witness for C5 (amended): identifier 7 already present — no change; fresh
identifier 9 against a three-entry catalog — exactly 9 is added. -/
theorem set_as_used_idempotent_spec_witness :
    (((7 : Int) ∈ regSeven "morning_media") ∧
        set_as_used "morning_media" 7 db3 regSeven = regSeven) ∧
      (((9 : Int) ∉ emptyRegister "morning_media" ∧
          (insort 9 (emptyRegister "morning_media")).length ≠ (db3 "morning_media").length) ∧
        ((set_as_used "morning_media" 9 db3 emptyRegister) "morning_media" =
            insort 9 (emptyRegister "morning_media") ∧
          (∀ x, x ∈ (set_as_used "morning_media" 9 db3 emptyRegister) "morning_media" ↔
            x = 9 ∨ x ∈ emptyRegister "morning_media"))) :=
  ⟨⟨by decide, set_as_used_idempotent_spec.1 "morning_media" 7 db3 regSeven (by decide)⟩,
    ⟨⟨by decide, by decide⟩,
      (set_as_used_idempotent_spec.2 "morning_media" 9 db3 emptyRegister (by decide)).2.1
        (by decide)⟩⟩

/-- C6: identifiers in the register stay inside the corresponding catalog:
the subset invariant is preserved by `set_as_used` for any identifier drawn
from the catalog of the touched kind, and the identifier marked by the system
always is one — the entry returned by `get_morning_media` /
`get_morning_sticker` is a member of the catalog it was picked from. -/
theorem register_subset_invariant :
    (∀ (entry : String) (uid : Int) (db : Database) (register : Register),
        (∀ k, ∀ x ∈ register k, x ∈ catalog_uids (db k)) →
        uid ∈ catalog_uids (db entry) →
        ∀ k, ∀ x ∈ (set_as_used entry uid db register) k, x ∈ catalog_uids (db k)) ∧
    (∀ (catalog : List Entry) (register : List Int) (choose : EntryChooser) (e : Entry),
        get_morning_media catalog register choose = .ok e → e ∈ catalog) ∧
    (∀ (catalog : List Entry) (register : List Int) (choose : EntryChooser) (e : Entry),
        get_morning_sticker catalog register choose = .ok e → e ∈ catalog) := by
  refine ⟨?_, ?_, ?_⟩
  · intro entry uid db register hinv huid k x hx
    rw [set_as_used_apply] at hx
    by_cases hmem : uid ∈ register entry
    · rw [if_pos hmem] at hx
      exact hinv k x hx
    · rw [if_neg hmem] at hx
      by_cases hk : k = entry
      · subst hk
        rw [if_pos rfl] at hx
        by_cases hlen : (insort uid (register k)).length = (db k).length
        · rw [if_pos hlen] at hx
          simp at hx
        · rw [if_neg hlen] at hx
          rcases mem_insort.mp hx with rfl | hx'
          · exact huid
          · exact hinv k x hx'
      · rw [if_neg hk] at hx
        exact hinv k x hx
  · intro catalog register choose e h
    by_cases ha : filter_by_register catalog register Entry.uid = []
    · simp [get_morning_media, ha] at h
    · simp only [get_morning_media, dif_neg ha, Except.ok.injEq] at h
      subst h
      exact (filter_by_register_sublist catalog register Entry.uid).subset
        (choose (filter_by_register catalog register Entry.uid) ha).property
  · intro catalog register choose e h
    by_cases ha : filter_by_register catalog register Entry.uid = []
    · simp [get_morning_sticker, ha] at h
    · simp only [get_morning_sticker, dif_neg ha, Except.ok.injEq] at h
      subst h
      exact (filter_by_register_sublist catalog register Entry.uid).subset
        (choose (filter_by_register catalog register Entry.uid) ha).property

/-- Witness for C6: the empty register over the three-entry catalog, marking
the catalog identifier 2; and a picked entry lying in its catalog. -/
theorem register_subset_invariant_witness :
    ((∀ k, ∀ x ∈ emptyRegister k, x ∈ catalog_uids (db3 k)) ∧
        (2 : Int) ∈ catalog_uids (db3 "morning_media") ∧
        (∀ k, ∀ x ∈ (set_as_used "morning_media" 2 db3 emptyRegister) k,
          x ∈ catalog_uids (db3 k))) ∧
      (get_morning_media [⟨1⟩] [] chooseFirst = .ok ⟨1⟩ ∧
        (⟨1⟩ : Entry) ∈ [(⟨1⟩ : Entry)]) :=
  ⟨⟨fun k x hx => absurd hx (by simp [emptyRegister]), by decide,
      register_subset_invariant.1 "morning_media" 2 db3 emptyRegister
        (fun k x hx => absurd hx (by simp [emptyRegister])) (by decide)⟩,
    ⟨rfl, register_subset_invariant.2.1 [⟨1⟩] [] chooseFirst ⟨1⟩ rfl⟩⟩

/-- Counterexample to C4 as stated: an empty catalog and an exhausted
non-empty catalog produce the very same `ValueError` from
`get_morning_media` — the code raises one error kind, with one message, in
both situations, so the caller cannot distinguish them. -/
theorem pick_unused_error_counterexample :
    get_morning_media [] [] chooseFirst =
        .error (.valueError "No available morning media items to choose from.") ∧
      get_morning_media [⟨1⟩] [1] chooseFirst =
        .error (.valueError "No available morning media items to choose from.") ∧
      get_morning_media [] [] chooseFirst = get_morning_media [⟨1⟩] [1] chooseFirst :=
  ⟨rfl, rfl, rfl⟩

/-- C4 (amended): each pick function fails exactly with its single
`ValueError` both when its catalog is empty and when every catalog identifier
is already registered; there is no distinct empty-catalog error kind, so the
two failure causes are indistinguishable to the caller. -/
theorem pick_unused_error_spec :
    (∀ (register : List Int) (choose : EntryChooser),
        get_morning_sticker [] register choose =
          .error (.valueError "No available morning stickers to choose from.") ∧
        get_morning_media [] register choose =
          .error (.valueError "No available morning media items to choose from.")) ∧
    (∀ (catalog : List Entry) (register : List Int) (choose : EntryChooser),
        (∀ e ∈ catalog, e.uid ∈ register) →
        get_morning_sticker catalog register choose =
          .error (.valueError "No available morning stickers to choose from.") ∧
        get_morning_media catalog register choose =
          .error (.valueError "No available morning media items to choose from.")) := by
  have hexh : ∀ (catalog : List Entry) (register : List Int),
      (∀ e ∈ catalog, e.uid ∈ register) →
      filter_by_register catalog register Entry.uid = [] := by
    intro catalog register hall
    rw [List.eq_nil_iff_forall_not_mem]
    intro e he
    rcases mem_filter_by_register.mp he with ⟨hmem, hnot⟩
    exact hnot (hall e hmem)
  constructor
  · intro register choose
    exact ⟨rfl, rfl⟩
  · intro catalog register choose hall
    constructor
    · simp [get_morning_sticker, hexh catalog register hall]
    · simp [get_morning_media, hexh catalog register hall]

/-- Witness for C4 (amended): the exhausted case at the one-entry catalog
whose identifier is already registered. -/
theorem pick_unused_error_spec_witness :
    (∀ e ∈ [(⟨1⟩ : Entry)], e.uid ∈ ([1] : List Int)) ∧
      (get_morning_sticker [⟨1⟩] [1] chooseFirst =
          .error (.valueError "No available morning stickers to choose from.") ∧
        get_morning_media [⟨1⟩] [1] chooseFirst =
          .error (.valueError "No available morning media items to choose from.")) :=
  ⟨by decide, pick_unused_error_spec.2 [⟨1⟩] [1] chooseFirst (by decide)⟩

/-- The f-string `f"{left}{' ' if left != '' and right != '' else ''}{right}"`
is the spec's conditional space join. -/
theorem render_join (l r : String) :
    l ++ (if l ≠ "" ∧ r ≠ "" then " " else "") ++ r = space_join l r := by
  unfold space_join
  by_cases h : l ≠ "" ∧ r ≠ ""
  · rw [if_pos h, if_pos h]
  · rw [if_neg h, if_neg h, String.append_empty]

/-- The successor rendering used by `Token.eval`, phrased via
`get_next_token`. -/
theorem token_right_eq (pick : Picker) (t : Token) :
    (t.get_next_token pick).elim "" (fun n => n.eval pick) =
      if h : t.next_tokens = [] then "" else Token.eval pick (pick t.next_tokens h).val := by
  unfold Token.get_next_token
  by_cases h : t.next_tokens = [] <;> simp [h]

/-- C3: `Token.eval` renders its own value as `left`, obtains the next token
(`none` exactly when the successor list is empty, otherwise the token chosen
by `pick_next`), renders it recursively as `right` (empty when there is no
successor), and joins `left` and `right` with a single space only when both
are non-empty; hence the root `"Wenas"` with a chosen empty-string successor
renders to exactly `"Wenas"`, with no trailing space. -/
theorem token_eval_spec :
    (∀ (pick : Picker) (t : Token),
        t.eval pick =
          space_join t.value ((t.get_next_token pick).elim "" (fun n => n.eval pick))) ∧
    (∀ (pick : Picker) (t : Token),
        t.get_next_token pick = none ↔ t.next_tokens = []) ∧
    (∀ (pick : Picker) (t : Token) (h : t.next_tokens ≠ []),
        t.get_next_token pick = some (pick t.next_tokens h).val) ∧
    (Token.mk "Wenas" [Token.mk "" []]).eval pickFirst = "Wenas" := by
  have heval : ∀ (pick : Picker) (t : Token),
      t.eval pick =
        space_join t.value ((t.get_next_token pick).elim "" (fun n => n.eval pick)) := by
    intro pick t
    rw [token_right_eq]
    rw [Token.eval]
    exact render_join _ _
  refine ⟨heval, ?_, ?_, ?_⟩
  · intro pick t
    unfold Token.get_next_token
    by_cases h : t.next_tokens = [] <;> simp [h]
  · intro pick t h
    unfold Token.get_next_token
    rw [dif_neg h]
  · have h1 : (Token.mk "" ([] : List Token)).eval pickFirst = "" := by
      rw [heval]
      simp [Token.get_next_token, Token.next_tokens, Token.value, space_join]
    have h2 : (Token.mk "Wenas" [Token.mk "" []]).get_next_token pickFirst =
        some (Token.mk "" []) := rfl
    have hw : ("Wenas" : String) ≠ "" := by decide
    rw [heval, h2]
    simp only [Option.elim, h1, Token.value]
    simp [space_join, hw]

/-- Witness for C3 at the `"Wenas"` token with its empty-string successor. -/
theorem token_eval_spec_witness :
    (Token.mk "Wenas" [Token.mk "" []]).next_tokens ≠ [] ∧
      (Token.mk "Wenas" [Token.mk "" []]).get_next_token pickFirst =
        some (pickFirst (Token.mk "Wenas" [Token.mk "" []]).next_tokens (by decide)).val :=
  ⟨by decide,
    token_eval_spec.2.2.1 pickFirst (Token.mk "Wenas" [Token.mk "" []]) (by decide)⟩

/-- C7: `SentenceGenerator.eval` returns the empty string — without throwing,
the function being total — whenever the root list is empty, and otherwise
returns the rendering of the root chosen by `pick_root`. -/
theorem sentence_generator_eval_spec :
    (∀ (pick_root pick : Picker) (g : SentenceGenerator),
        g.initial_tokens = [] → g.eval pick_root pick = "") ∧
    (∀ (pick_root pick : Picker) (g : SentenceGenerator) (h : g.initial_tokens ≠ []),
        g.eval pick_root pick = Token.eval pick (pick_root g.initial_tokens h).val) := by
  constructor
  · intro pr p g h
    simp [SentenceGenerator.eval, h]
  · intro pr p g h
    simp [SentenceGenerator.eval, h]

/-- Witness for C7 at the empty generator and a one-root generator. -/
theorem sentence_generator_eval_spec_witness :
    ((SentenceGenerator.mk []).initial_tokens = [] ∧
        (SentenceGenerator.mk []).eval pickFirst pickFirst = "") ∧
      ((SentenceGenerator.mk [Token.mk "Hola" []]).initial_tokens ≠ [] ∧
        (SentenceGenerator.mk [Token.mk "Hola" []]).eval pickFirst pickFirst =
          Token.eval pickFirst
            (pickFirst (SentenceGenerator.mk [Token.mk "Hola" []]).initial_tokens
              (by decide)).val) :=
  ⟨⟨rfl, sentence_generator_eval_spec.1 pickFirst pickFirst (SentenceGenerator.mk []) rfl⟩,
    ⟨by decide,
      sentence_generator_eval_spec.2 pickFirst pickFirst
        (SentenceGenerator.mk [Token.mk "Hola" []]) (by decide)⟩⟩

/-- At draw `u = 0` the sampler returns its lower bound. -/
theorem low_random_zero_draw (a b : ℤ) (p : ℝ) (hp : p ≠ 0) :
    low_random a b p 0 = a := by
  unfold low_random pyInt
  rw [Real.zero_rpow hp, mul_zero, if_pos le_rfl, Int.floor_zero, add_zero]

/-- At draw `u = 0`, `get_emoji` picks the first slot entry. -/
theorem get_emoji_zero_draw (emojis : List String) (p : ℝ) (hp : p ≠ 0) :
    get_emoji emojis p 0 = emojis.getD 0 "" := by
  unfold get_emoji
  rw [low_random_zero_draw 1 (emojis.length : ℤ) p hp]
  norm_num

/-- At draw `u = 9/10`, the sixth slot (`p = 2` over the three-entry list)
picks the heart. -/
theorem get_emoji_six_at : get_emoji emoji6 2 (9 / 10) = "❤" := by
  have hlen : ((emoji6.length : ℕ) : ℤ) = 3 := by simp [emoji6]
  have hpow : ((9 : ℝ) / 10) ^ (2 : ℝ) = 81 / 100 := by
    rw [Real.rpow_two]; norm_num
  have hfloor : ⌊(243 / 100 : ℝ)⌋ = 2 := by
    rw [Int.floor_eq_iff]; norm_num
  have hlr : low_random 1 (emoji6.length : ℤ) 2 (9 / 10) = 3 := by
    unfold low_random pyInt
    rw [hlen]
    rw [show ((3 - 1 + 1 : ℤ) : ℝ) * ((9 : ℝ) / 10) ^ (2 : ℝ) = 243 / 100 by
      rw [hpow]; norm_num]
    rw [if_pos (by norm_num : (0 : ℝ) ≤ 243 / 100), hfloor]
    decide
  unfold get_emoji
  rw [hlr]
  decide

/-- On the concrete stream `draws0` the very first loop attempt already
produces a non-empty suffix: the first five slots come out empty and the
sixth is the heart. -/
theorem emoji_attempt_draws0 : emoji_attempt draws0 0 = "❤" := by
  have hd : ∀ n : ℕ, n ≠ 5 → draws0 n = 0 := by
    intro n hn; simp [draws0, hn]
  have hd5 : draws0 5 = 9 / 10 := by simp [draws0]
  simp only [emoji_attempt, get_all_emojis]
  have a0 : (6 * 0 + ((0 : Fin 6)).val) = 0 := rfl
  have a1 : (6 * 0 + ((1 : Fin 6)).val) = 1 := rfl
  have a2 : (6 * 0 + ((2 : Fin 6)).val) = 2 := rfl
  have a3 : (6 * 0 + ((3 : Fin 6)).val) = 3 := rfl
  have a4 : (6 * 0 + ((4 : Fin 6)).val) = 4 := rfl
  have a5 : (6 * 0 + ((5 : Fin 6)).val) = 5 := rfl
  rw [a0, a1, a2, a3, a4, a5, hd 0 (by norm_num), hd 1 (by norm_num), hd 2 (by norm_num),
    hd 3 (by norm_num), hd 4 (by norm_num), hd5]
  rw [get_emoji_zero_draw emoji1 3.5 (by norm_num), get_emoji_zero_draw emoji2 5 (by norm_num),
    get_emoji_zero_draw emoji3 4 (by norm_num), get_emoji_zero_draw emoji4 3 (by norm_num),
    get_emoji_zero_draw emoji5 1.3 (by norm_num), get_emoji_six_at]
  decide

/-- The loop over `draws0` terminates: attempt 0 is already non-empty. -/
theorem draws0_ok : ∃ k, emoji_attempt draws0 k ≠ "" :=
  ⟨0, by rw [emoji_attempt_draws0]; decide⟩

/-- C8: `get_morning_greeting` returns the generated phrase, one separating
space, and the emoji suffix; the suffix is the first non-empty attempt (all
earlier attempts were empty — the loop regenerates the whole suffix until it
is non-empty), each attempt being the separator-free concatenation of six
per-slot choices drawn by the skewed sampler with the distinct exponents
3.5, 5, 4, 3, 1.3 and 2; consequently the result never ends in the
separating space alone. -/
theorem get_morning_greeting_spec :
    ∀ (greeting : String) (draws : ℕ → ℝ) (h : ∃ k, emoji_attempt draws k ≠ ""),
      (∀ j, j < Nat.find h → emoji_attempt draws j = "") ∧
      emoji_attempt draws (Nat.find h) ≠ "" ∧
      get_morning_greeting greeting draws h =
        greeting ++ " " ++ emoji_attempt draws (Nat.find h) ∧
      (∀ k, emoji_attempt draws k =
        get_emoji emoji1 3.5 (draws (6 * k)) ++ get_emoji emoji2 5 (draws (6 * k + 1)) ++
          get_emoji emoji3 4 (draws (6 * k + 2)) ++ get_emoji emoji4 3 (draws (6 * k + 3)) ++
          get_emoji emoji5 1.3 (draws (6 * k + 4)) ++ get_emoji emoji6 2 (draws (6 * k + 5))) ∧
      get_morning_greeting greeting draws h ≠ greeting ++ " " := by
  intro greeting draws h
  refine ⟨?_, Nat.find_spec h, rfl, fun k => rfl, ?_⟩
  · intro j hj
    have := Nat.find_min h hj
    simpa using this
  · intro heq
    have hE := Nat.find_spec h
    have hlen := congrArg String.length heq
    simp only [get_morning_greeting, String.length_append] at hlen
    have hpos := string_length_pos_of_ne hE
    omega

/-- Witness for C8 at the concrete greeting `"Hola"` and stream `draws0`. -/
theorem get_morning_greeting_spec_witness :
    (∃ k, emoji_attempt draws0 k ≠ "") ∧
      ((∀ j, j < Nat.find draws0_ok → emoji_attempt draws0 j = "") ∧
        emoji_attempt draws0 (Nat.find draws0_ok) ≠ "" ∧
        get_morning_greeting "Hola" draws0 draws0_ok =
          "Hola" ++ " " ++ emoji_attempt draws0 (Nat.find draws0_ok) ∧
        (∀ k, emoji_attempt draws0 k =
          get_emoji emoji1 3.5 (draws0 (6 * k)) ++ get_emoji emoji2 5 (draws0 (6 * k + 1)) ++
            get_emoji emoji3 4 (draws0 (6 * k + 2)) ++
            get_emoji emoji4 3 (draws0 (6 * k + 3)) ++
            get_emoji emoji5 1.3 (draws0 (6 * k + 4)) ++
            get_emoji emoji6 2 (draws0 (6 * k + 5))) ∧
        get_morning_greeting "Hola" draws0 draws0_ok ≠ "Hola" ++ " ") :=
  ⟨draws0_ok, get_morning_greeting_spec "Hola" draws0 draws0_ok⟩
